import Mathlib

/-!
Verification of the basstrace acoustic renderer core, shallowly embedded
in Lean.  Machine integers (`u64`) are modelled as `ℕ` taken modulo
`2 ^ 64`, `f32` values are modelled as real numbers, and the renderer's
mutex-guarded state is modelled by explicit state passing.
-/

namespace Basstrace

/-! ### src/rand.rs -/

/-- The modulus of 64-bit machine arithmetic. -/
def U64LIM : ℕ := 2 ^ 64

/-- `x.rotate_left(k)` on `u64`. -/
def rotl64 (x k : ℕ) : ℕ :=
  ((x <<< k) % U64LIM) ||| (x >>> (64 - k))

/-- One step of the splitmix64 generator (src/rand.rs `splitmix64_next`):
the Rust function mutates `state` and returns an output; here the first
component is the new state and the second the output. -/
def splitmix64_next (state : ℕ) : ℕ × ℕ :=
  let s := (state + 0x9e3779b97f4a7c15) % U64LIM
  let z1 := s
  let z2 := ((z1 ^^^ (z1 >>> 30)) * 0xbf58476d1ce4e5b9) % U64LIM
  let z3 := ((z2 ^^^ (z2 >>> 27)) * 0x94d049bb133111eb) % U64LIM
  (s, z3 ^^^ (z3 >>> 31))

/-- The xoshiro256++ state, `state: [u64; 4]` in src/rand.rs. -/
structure Rng where
  s0 : ℕ
  s1 : ℕ
  s2 : ℕ
  s3 : ℕ
  deriving DecidableEq

/-- One step of the xoshiro256++ generator (src/rand.rs
`xoshiro256pp_next`), returning the output and the mutated state. -/
def xoshiro256pp_next (st : Rng) : ℕ × Rng :=
  let result := (rotl64 ((st.s0 + st.s3) % U64LIM) 23 + st.s0) % U64LIM
  let t := (st.s1 <<< 17) % U64LIM
  let s2a := st.s2 ^^^ st.s0
  let s3a := st.s3 ^^^ st.s1
  let s1a := st.s1 ^^^ s2a
  let s0a := st.s0 ^^^ s3a
  let s2b := s2a ^^^ t
  let s3b := rotl64 s3a 45
  (result, ⟨s0a, s1a, s2b, s3b⟩)

/-- `Rng::new(seed)`: seed the four state words with splitmix64. -/
def Rng.new (seed : ℕ) : Rng :=
  let t0 := splitmix64_next seed
  let t1 := splitmix64_next t0.1
  let t2 := splitmix64_next t1.1
  let t3 := splitmix64_next t2.1
  ⟨t0.2, t1.2, t2.2, t3.2⟩

/-- `Rng::next()`: advance the xoshiro256++ state, returning the output
and the new state. -/
def Rng.next (r : Rng) : ℕ × Rng := xoshiro256pp_next r

/-- The n-th output (0-based) of the generator started in state `r`. -/
def Rng.nthOutput (r : Rng) : ℕ → ℕ
  | 0 => r.next.1
  | n + 1 => r.next.2.nthOutput n

/-- Modelled from the spec: `Rng::index` is used by `Scene::sample_at` but
its definition is not among the provided sources.  Spec §4.3: an
`index(slice)` helper derives a uniform index into a non-empty ordered
sequence from one `next()` call (uniformity need not be perfectly
unbiased for small moduli).  We model it as the canonical `next() % len`,
taking the length of the slice. -/
def Rng.index (r : Rng) (len : ℕ) : ℕ × Rng :=
  let t := r.next
  (t.1 % len, t.2)

/-! ### Vector primitives

Modelled from the spec: src/vec3.rs and src/vec2.rs are not among the
provided sources (they are declared as modules and used by the rest of
the code).  Spec §3: ordered tuples of floating-point components with
addition, subtraction, scalar scale, dot product, cross product (3-D
only), Euclidean norm and squared norm, and normalization. -/

/-- Modelled from the spec: the 3-D vector of src/vec3.rs. -/
structure Vec3 where
  x : ℝ
  y : ℝ
  z : ℝ

noncomputable instance : Add Vec3 := ⟨fun a b => ⟨a.x + b.x, a.y + b.y, a.z + b.z⟩⟩

noncomputable instance : Sub Vec3 := ⟨fun a b => ⟨a.x - b.x, a.y - b.y, a.z - b.z⟩⟩

noncomputable instance : Neg Vec3 := ⟨fun a => ⟨-a.x, -a.y, -a.z⟩⟩

noncomputable instance : HMul Vec3 ℝ Vec3 := ⟨fun a c => ⟨a.x * c, a.y * c, a.z * c⟩⟩

/-- Modelled from the spec: dot product of src/vec3.rs. -/
noncomputable def Vec3.dot (a b : Vec3) : ℝ := a.x * b.x + a.y * b.y + a.z * b.z

/-- Modelled from the spec: cross product of src/vec3.rs. -/
noncomputable def Vec3.cross (a b : Vec3) : Vec3 :=
  ⟨a.y * b.z - a.z * b.y, a.z * b.x - a.x * b.z, a.x * b.y - a.y * b.x⟩

/-- Modelled from the spec: squared Euclidean norm of src/vec3.rs. -/
noncomputable def Vec3.norm_squared (a : Vec3) : ℝ := a.dot a

/-- Modelled from the spec: Euclidean norm of src/vec3.rs. -/
noncomputable def Vec3.norm (a : Vec3) : ℝ := Real.sqrt a.norm_squared

/-- Modelled from the spec: normalization of src/vec3.rs (undefined for
the zero vector; with the real-number convention `x⁻¹` at `0` this yields
the zero vector there). -/
noncomputable def Vec3.normalized (a : Vec3) : Vec3 := a * a.norm⁻¹

/-- Modelled from the spec: the 2-D vector of src/vec2.rs. -/
structure Vec2 where
  x : ℝ
  y : ℝ

def Vec2.zero : Vec2 := ⟨0, 0⟩

noncomputable instance : Add Vec2 := ⟨fun a b => ⟨a.x + b.x, a.y + b.y⟩⟩

noncomputable instance : Sub Vec2 := ⟨fun a b => ⟨a.x - b.x, a.y - b.y⟩⟩

noncomputable instance : HMul Vec2 ℝ Vec2 := ⟨fun a c => ⟨a.x * c, a.y * c⟩⟩

/-- Modelled from the spec: Euclidean norm of src/vec2.rs. -/
noncomputable def Vec2.norm (a : Vec2) : ℝ := Real.sqrt (a.x * a.x + a.y * a.y)

/-! ### src/complex.rs -/

/-- `Complex(pub Vec2)`: a complex number as a pair of floats. -/
structure Complex where
  v : Vec2

def Complex.new (real imag : ℝ) : Complex := ⟨⟨real, imag⟩⟩

def Complex.zero : Complex := ⟨Vec2.zero⟩

/-- `exp(i * t)`. -/
noncomputable def Complex.exp_i (t : ℝ) : Complex := ⟨⟨Real.cos t, Real.sin t⟩⟩

def Complex.real (c : Complex) : ℝ := c.v.x

def Complex.imag (c : Complex) : ℝ := c.v.y

noncomputable def Complex.norm (c : Complex) : ℝ := c.v.norm

/-- Componentwise addition of `Complex`, as in src/complex.rs. -/
noncomputable instance : Add Complex := ⟨fun a b => ⟨a.v + b.v⟩⟩

instance : Zero Complex := ⟨Complex.zero⟩

/-- The addition and zero of src/complex.rs packaged as a commutative
monoid, so that finite sums over bounce indices can be written with
`Finset.sum`. -/
noncomputable instance : AddCommMonoid Complex where
  add := (· + ·)
  zero := 0
  nsmul := nsmulRec
  add_assoc a b c := by
    obtain ⟨⟨ax, ay⟩⟩ := a
    obtain ⟨⟨bx, by'⟩⟩ := b
    obtain ⟨⟨cx, cy⟩⟩ := c
    show (⟨⟨ax + bx + cx, ay + by' + cy⟩⟩ : Complex) =
      ⟨⟨ax + (bx + cx), ay + (by' + cy)⟩⟩
    rw [add_assoc, add_assoc]
  zero_add a := by
    obtain ⟨⟨ax, ay⟩⟩ := a
    show (⟨⟨0 + ax, 0 + ay⟩⟩ : Complex) = ⟨⟨ax, ay⟩⟩
    rw [zero_add, zero_add]
  add_zero a := by
    obtain ⟨⟨ax, ay⟩⟩ := a
    show (⟨⟨ax + 0, ay + 0⟩⟩ : Complex) = ⟨⟨ax, ay⟩⟩
    rw [add_zero, add_zero]
  add_comm a b := by
    obtain ⟨⟨ax, ay⟩⟩ := a
    obtain ⟨⟨bx, by'⟩⟩ := b
    show (⟨⟨ax + bx, ay + by'⟩⟩ : Complex) = ⟨⟨bx + ax, by' + ay⟩⟩
    rw [add_comm ax bx, add_comm ay by']

noncomputable instance : Sub Complex := ⟨fun a b => ⟨a.v - b.v⟩⟩

noncomputable instance : HMul Complex ℝ Complex := ⟨fun a c => ⟨a.v * c⟩⟩

noncomputable instance : Mul Complex :=
  ⟨fun a b =>
    Complex.new (a.real * b.real - a.imag * b.imag)
      (a.real * b.imag + a.imag * b.real)⟩

/-! ### src/scene.rs: sources and faces -/

/-- The speed of sound in m/s in air at 25 degrees Celsius and 1 atm. -/
noncomputable def SPEED_OF_SOUND : ℝ := 346.3

/-- A speaker, emitting sound in the given direction. -/
structure Source where
  position : Vec3
  direction : Vec3

/-- `Source::new`. -/
noncomputable def Source.new (position aimed_at : Vec3) : Source :=
  ⟨position, (aimed_at - position).normalized⟩

/-- `Source::sample_at`: sample the field produced by the source at the
given position. -/
noncomputable def Source.sample_at (s : Source) (frequency : ℝ) (position : Vec3) :
    Complex :=
  let distance_squared := (position - s.position).norm_squared
  let attenuation_distance := distance_squared⁻¹
  let distance := Real.sqrt distance_squared
  let n_waves := frequency * distance / SPEED_OF_SOUND
  let d := (position - s.position).dot s.direction
  let attenuation_phase := d * distance⁻¹
  Complex.exp_i (2 * Real.pi * n_waves) * attenuation_distance * attenuation_phase

/-- An (infinite) band, the intersection of two half-planes. -/
structure Face where
  origin : Vec3
  normal : Vec3
  tangent : Vec3
  width : ℝ

/-- `Face::new`: construct a face through `p1` and `p2`. -/
noncomputable def Face.new (p1 p2 forward : Vec3) : Face where
  origin := p1
  normal := (forward.cross (p2 - p1)).normalized
  tangent := (p2 - p1).normalized
  width := (p2 - p1).norm

/-- `Face::reflect`: reflect the point p in the plane. -/
noncomputable def Face.reflect (f : Face) (p : Vec3) : Vec3 :=
  let d := f.normal.dot (p - f.origin)
  p - f.normal * (d + d)

/-- `Face::is_facing`: whether the point is on the front side of the
face, the side where the normal points. -/
def Face.is_facing (f : Face) (p : Vec3) : Prop :=
  0 < f.normal.dot (p - f.origin)

/-! ### src/scene.rs: the scene and the path estimator -/

/-- A scene: sources and faces. -/
structure Scene where
  sources : List Source
  faces : List Face

/-- `Scene::new_example`: the hard-coded example scene. -/
noncomputable def Scene.new_example : Scene :=
  let up : Vec3 := ⟨0, 0, 1⟩
  let side : Vec3 := ⟨0, 1, 0⟩
  let p0 : Vec3 := ⟨0, 0, 0⟩
  let p1 : Vec3 := ⟨8.32, 0, 0⟩
  let p2 : Vec3 := ⟨8.32, 3.35, 0⟩
  let p3 : Vec3 := ⟨0, 3.35, 0⟩
  let s1 : Vec3 := ⟨0.60, 0.30, 1⟩
  let s2 : Vec3 := ⟨2.20, 0.30, 1⟩
  let listener : Vec3 := ⟨1.40, 3, 1⟩
  let ceil_off : Vec3 := ⟨0, 0, 2.8⟩
  { sources := [Source.new s1 listener, Source.new s2 listener]
    faces := [Face.new p0 p1 up, Face.new p1 p2 up, Face.new p2 p3 up,
      Face.new p3 p0 up, Face.new p0 p1 (-side),
      Face.new (p0 + ceil_off) (p1 + ceil_off) side] }

/-- The inner rejection loop of `Scene::sample_at`: draw face indices
until one differs from `fi`.  The Rust `loop` has no bound; the `fuel`
argument makes the partial loop total, with `none` standing for
divergence. -/
def pickDifferentFace : ℕ → Rng → ℕ → ℕ → Option (ℕ × Rng)
  | 0, _, _, _ => none
  | fuel + 1, r, numFaces, fi =>
    let t := r.index numFaces
    if t.1 ≠ fi then some (t.1, t.2) else pickDifferentFace fuel t.2 numFaces fi

/-- The t-th result of repeatedly calling `rng.index(faces)` starting in
state `r` (each call consumes one `next()`). -/
def Rng.indexStream (r : Rng) (len : ℕ) : ℕ → ℕ
  | 0 => (r.index len).1
  | t + 1 => (r.index len).2.indexStream len t

/-- The running state of the bounce loop in `Scene::sample_at`. -/
structure BounceState where
  z : Complex
  p : Vec3
  amplitude : ℝ
  fi : ℕ
  rng : Rng

/-- One iteration of the bounce loop of `Scene::sample_at`: add the
source sample scaled by the amplitude, pick a face differing from the
previous one, reflect, and scale the amplitude by `factor`. -/
noncomputable def bounceStep (scene : Scene) (source : Source) (factor frequency : ℝ)
    (fuel : ℕ) (st : BounceState) : Option BounceState :=
  let z := st.z + source.sample_at frequency st.p * st.amplitude
  match pickDifferentFace fuel st.rng scene.faces.length st.fi with
  | none => none
  | some (fi, r) =>
    match scene.faces[fi]? with
    | none => none
    | some face => some ⟨z, face.reflect st.p, st.amplitude * factor, fi, r⟩

/-- Iterate the bounce loop `n` times. -/
noncomputable def runBounces (scene : Scene) (source : Source) (factor frequency : ℝ)
    (fuel : ℕ) : ℕ → BounceState → Option BounceState
  | 0, st => some st
  | n + 1, st =>
    (bounceStep scene source factor frequency fuel st).bind
      (runBounces scene source factor frequency fuel n)

open scoped Classical in
/-- `Scene::sample_at`.  The Rust function takes `&mut Rng`; here the
final generator state is returned alongside the result.  The unbounded
inner rejection loop is given `fuel` tries per bounce, `none` modelling
divergence (or a panic on an impossible out-of-range index).  The early
return for a position outside the room consults neither the generator
nor the fuel. -/
noncomputable def Scene.sample_at (scene : Scene) (fuel : ℕ) (rng : Rng)
    (frequency : ℝ) (position : Vec3) : Option (Complex × Rng) :=
  if ∀ face ∈ scene.faces, face.is_facing position then
    let reflectivity : ℝ := -0.95
    let factor : ℝ := reflectivity * ((scene.faces.length - 1 : ℕ) : ℝ)
    let t0 := rng.index scene.sources.length
    match scene.sources[t0.1]? with
    | none => none
    | some source =>
      let t1 := t0.2.index scene.faces.length
      (runBounces scene source factor frequency fuel 30
          ⟨Complex.zero, position, 1 / 4096, t1.1, t1.2⟩).map
        fun st => (st.z, st.rng)
  else some (Complex.zero, rng)

/-! ### src/renderer.rs -/

/-- Render parameters, compared for equality to detect staleness. -/
structure RenderParams where
  frequency_hz : ℝ

/-- The state a `Renderer` guards behind its two mutexes, modelled by
value: the current parameters and the shared accumulation buffer, with
the immutable width and height carried alongside. -/
structure RendererState where
  width : ℕ
  height : ℕ
  params : RenderParams
  buffer : List Complex

/-- `Renderer::area()`. -/
def RendererState.area (rs : RendererState) : ℕ := rs.width * rs.height

/-- `Renderer::clear()`: zero every element of the shared buffer. -/
def RendererState.clear (rs : RendererState) : RendererState :=
  { rs with buffer := rs.buffer.map fun _ => Complex.zero }

/-- `Renderer::set_frequency(f_hz)`: store the new frequency in the
parameters, then clear the shared buffer. -/
def RendererState.set_frequency (rs : RendererState) (f_hz : ℝ) : RendererState :=
  ({ rs with params := { frequency_hz := f_hz } }).clear

open scoped Classical in
/-- `Renderer::accumulate_move(params, buffer)`: add `buffer` into the
shared buffer and zero `buffer`, unless the shared parameters no longer
equal `params`, in which case nothing changes.  `none` models a failed
`assert_eq!` (a panic).  The result pairs the new shared state with the
caller's buffer after the call. -/
noncomputable def RendererState.accumulate_move (rs : RendererState)
    (params : RenderParams) (buffer : List Complex) :
    Option (RendererState × List Complex) :=
  if buffer.length ≠ rs.area then none
  else if rs.params ≠ params then some (rs, buffer)
  else if rs.buffer.length ≠ buffer.length then none
  else
    some ({ rs with buffer := List.zipWith (· + ·) rs.buffer buffer },
      buffer.map fun _ => Complex.zero)

/-- Truncation of an `f32` value to `i32` (Rust `as i32`): toward zero,
saturating at the type bounds. -/
noncomputable def asI32 (v : ℝ) : ℤ :=
  if 0 ≤ v then min (2 ^ 31 - 1) ⌊v⌋ else max (-2 ^ 31) (-⌊-v⌋)

/-- The buffer index `Renderer::get_exposure` reads for source `s` and
neighborhood offset `(dx, dy)`: `(yi + dy) * width + (xi + dx)`, where
`xi`, `yi` are computed from the point 1 m in front of the source. -/
noncomputable def exposureIndex (s : Source) (width : ℕ) (dx dy : ℤ) : ℤ :=
  let p := s.position + s.direction
  let xi := asI32 ((p.x + 0.5) / 0.008)
  let yi := asI32 ((p.y + 0.5) / 0.008)
  (yi + dy) * (width : ℤ) + (xi + dx)

/-! ### Definitions taken from the claims, for the refinement theorems -/

/-- One step of the sequence the claim describes: draw a face index
differing from the previous one, then reflect the position across that
face.  `none` stands for the draw diverging (fuel exhaustion) or an
impossible out-of-range index. -/
noncomputable def specStep (scene : Scene) (fuel : ℕ) (s : Vec3 × ℕ × Rng) :
    Option (Vec3 × ℕ × Rng) :=
  match pickDifferentFace fuel s.2.2 scene.faces.length s.2.1 with
  | none => none
  | some (fi, r) =>
    match scene.faces[fi]? with
    | none => none
    | some face => some (face.reflect s.1, fi, r)

/-- The position/face-index/generator-state sequence the claim describes
for the estimator, starting from the target point and the initially
drawn face index: `k` iterations of `specStep`. -/
noncomputable def specBounceSeq (scene : Scene) (fuel : ℕ) :
    ℕ → Vec3 × ℕ × Rng → Option (Vec3 × ℕ × Rng)
  | 0, s => some s
  | n + 1, s => (specStep scene fuel s).bind (specBounceSeq scene fuel n)

/-- The k-th term of the sum the claim describes:
`source.sample_at(frequency, p_k)` scaled by `amplitude · factor^k`. -/
noncomputable def specTerm (scene : Scene) (source : Source) (factor frequency : ℝ)
    (fuel : ℕ) (s0 : Vec3 × ℕ × Rng) (amplitude : ℝ) (k : ℕ) : Complex :=
  match specBounceSeq scene fuel k s0 with
  | some s => source.sample_at frequency s.1 * (amplitude * factor ^ k)
  | none => 0

/-- The total the claim describes for `Scene::sample_at`: thirty bounce
terms with amplitudes `(1/4096) · (reflectivity · (F − 1))^k`. -/
noncomputable def specTotal (scene : Scene) (source : Source) (factor frequency : ℝ)
    (fuel : ℕ) (s0 : Vec3 × ℕ × Rng) : Complex :=
  ∑ k ∈ Finset.range 30, specTerm scene source factor frequency fuel s0 (1 / 4096) k

/-- A small concrete scene used to instantiate theorems on explicit
inputs: one source and two parallel walls facing each other, with the
sample position strictly between them. -/
noncomputable def demoScene : Scene :=
  { sources := [Source.new ⟨0.5, 0.5, 5⟩ ⟨0.5, 1, 0⟩]
    faces := [Face.new ⟨0, 0, 0⟩ ⟨1, 0, 0⟩ ⟨0, 0, 1⟩,
      Face.new ⟨0, 2, 0⟩ ⟨-1, 2, 0⟩ ⟨0, 0, 1⟩] }

/-- The formula the spec gives for `Source::sample_at` (C5), written with
the Euclidean distance `d` from the source to the position:
`exp_i(2π · frequency · d / 346.3) · (1/d²) · (dot(position − source, direction)/d)`. -/
noncomputable def sourceSampleSpecForm (s : Source) (frequency : ℝ) (position : Vec3) :
    Complex :=
  let d := Real.sqrt ((position - s.position).norm_squared)
  Complex.exp_i (2 * Real.pi * (frequency * d / SPEED_OF_SOUND)) *
      (1 / d ^ 2) * ((position - s.position).dot s.direction / d)

/-! ### Basic lemmas about the primitives -/

theorem Vec3.eq_iff (a b : Vec3) : a = b ↔ a.x = b.x ∧ a.y = b.y ∧ a.z = b.z := by
  constructor
  · intro h; subst h; exact ⟨rfl, rfl, rfl⟩
  · obtain ⟨ax, ay, az⟩ := a
    obtain ⟨bx, by', bz⟩ := b
    rintro ⟨h1, h2, h3⟩
    simp_all

@[simp] theorem Vec3.add_x (a b : Vec3) : (a + b).x = a.x + b.x := rfl

@[simp] theorem Vec3.add_y (a b : Vec3) : (a + b).y = a.y + b.y := rfl

@[simp] theorem Vec3.add_z (a b : Vec3) : (a + b).z = a.z + b.z := rfl

@[simp] theorem Vec3.sub_x (a b : Vec3) : (a - b).x = a.x - b.x := rfl

@[simp] theorem Vec3.sub_y (a b : Vec3) : (a - b).y = a.y - b.y := rfl

@[simp] theorem Vec3.sub_z (a b : Vec3) : (a - b).z = a.z - b.z := rfl

@[simp] theorem Vec3.neg_x (a : Vec3) : (-a).x = -a.x := rfl

@[simp] theorem Vec3.neg_y (a : Vec3) : (-a).y = -a.y := rfl

@[simp] theorem Vec3.neg_z (a : Vec3) : (-a).z = -a.z := rfl

@[simp] theorem Vec3.smul_x (a : Vec3) (c : ℝ) : (a * c).x = a.x * c := rfl

@[simp] theorem Vec3.smul_y (a : Vec3) (c : ℝ) : (a * c).y = a.y * c := rfl

@[simp] theorem Vec3.smul_z (a : Vec3) (c : ℝ) : (a * c).z = a.z * c := rfl

theorem Vec3.norm_squared_nonneg (a : Vec3) : 0 ≤ a.norm_squared := by
  unfold Vec3.norm_squared Vec3.dot
  have hx := mul_self_nonneg a.x
  have hy := mul_self_nonneg a.y
  have hz := mul_self_nonneg a.z
  linarith

theorem Vec3.normalized_dot_self (v : Vec3) (h : v.norm_squared ≠ 0) :
    v.normalized.dot v.normalized = 1 := by
  have h0 : 0 ≤ v.norm_squared := v.norm_squared_nonneg
  have hsq : Real.sqrt v.norm_squared * Real.sqrt v.norm_squared = v.norm_squared :=
    Real.mul_self_sqrt h0
  unfold Vec3.normalized Vec3.norm
  unfold Vec3.norm_squared Vec3.dot at hsq h ⊢
  simp only [Vec3.smul_x, Vec3.smul_y, Vec3.smul_z]
  set t := Real.sqrt (v.x * v.x + v.y * v.y + v.z * v.z) with ht
  have htne : t ≠ 0 := by
    intro h0t
    rw [h0t, zero_mul] at hsq
    exact h (hsq.symm)
  field_simp
  linarith [hsq]

/-- Reflection across a face whose normal is a unit vector is an
involution. -/
theorem Face.reflect_reflect (f : Face) (hn : f.normal.dot f.normal = 1) (p : Vec3) :
    f.reflect (f.reflect p) = p := by
  obtain ⟨o, n, tg, w⟩ := f
  unfold Face.reflect
  unfold Vec3.dot at hn ⊢
  rw [Vec3.eq_iff]
  simp only [Vec3.sub_x, Vec3.sub_y, Vec3.sub_z, Vec3.smul_x, Vec3.smul_y, Vec3.smul_z]
  refine ⟨?_, ?_, ?_⟩
  · linear_combination (4 * n.x * (n.x * (p.x - o.x) + n.y * (p.y - o.y) + n.z * (p.z - o.z))) * hn
  · linear_combination (4 * n.y * (n.x * (p.x - o.x) + n.y * (p.y - o.y) + n.z * (p.z - o.z))) * hn
  · linear_combination (4 * n.z * (n.x * (p.x - o.x) + n.y * (p.y - o.y) + n.z * (p.z - o.z))) * hn

/-- C5: for every source and every position distinct from the source
position, `Source::sample_at(frequency, position)` returns
`exp_i(2π · frequency · d / 346.3)` multiplied by `1/d²` and by
`dot(position − source.position, source.direction)/d`, where `d` is the
Euclidean distance from the source to the position. -/
theorem source_sample_at_matches_spec (s : Source) (frequency : ℝ) (position : Vec3)
    (_h : position ≠ s.position) :
    s.sample_at frequency position = sourceSampleSpecForm s frequency position := by
  unfold Source.sample_at sourceSampleSpecForm
  dsimp only
  have h0 : 0 ≤ (position - s.position).norm_squared :=
    (position - s.position).norm_squared_nonneg
  rw [Real.sq_sqrt h0, one_div, div_eq_mul_inv, div_eq_mul_inv]

theorem source_sample_at_matches_spec_witness :
    ((⟨1, 3, 0⟩ : Vec3) ≠ (Source.new ⟨1, 0, 0⟩ ⟨1, 1, 0⟩).position) ∧
      (Source.new ⟨1, 0, 0⟩ ⟨1, 1, 0⟩).sample_at 440 ⟨1, 3, 0⟩ =
        sourceSampleSpecForm (Source.new ⟨1, 0, 0⟩ ⟨1, 1, 0⟩) 440 ⟨1, 3, 0⟩ := by
  have hne : ((⟨1, 3, 0⟩ : Vec3) ≠ (Source.new ⟨1, 0, 0⟩ ⟨1, 1, 0⟩).position) := by
    intro hc
    rw [Source.new, Vec3.eq_iff] at hc
    norm_num at hc
  exact ⟨hne, source_sample_at_matches_spec _ 440 _ hne⟩

/-- C8: for every face constructed by `Face::new` (from two points and a
forward vector whose cross product with their difference is nonzero, so
that normalization is defined) and every point `p`,
`reflect(reflect(p)) = p`: reflection is an involution.  In the
real-number model the identity is exact. -/
theorem face_new_reflect_involution (p1 p2 forward p : Vec3)
    (h : (forward.cross (p2 - p1)).norm_squared ≠ 0) :
    (Face.new p1 p2 forward).reflect ((Face.new p1 p2 forward).reflect p) = p := by
  apply Face.reflect_reflect
  show ((forward.cross (p2 - p1)).normalized).dot _ = 1
  exact Vec3.normalized_dot_self _ h

theorem face_new_reflect_involution_witness :
    ((⟨0, 0, 1⟩ : Vec3).cross ((⟨1, 0, 0⟩ : Vec3) - ⟨0, 0, 0⟩)).norm_squared ≠ 0 ∧
      (Face.new ⟨0, 0, 0⟩ ⟨1, 0, 0⟩ ⟨0, 0, 1⟩).reflect
          ((Face.new ⟨0, 0, 0⟩ ⟨1, 0, 0⟩ ⟨0, 0, 1⟩).reflect ⟨2, 5, 7⟩) = ⟨2, 5, 7⟩ := by
  have hne : ((⟨0, 0, 1⟩ : Vec3).cross ((⟨1, 0, 0⟩ : Vec3) - ⟨0, 0, 0⟩)).norm_squared ≠ 0 := by
    unfold Vec3.cross Vec3.norm_squared Vec3.dot
    norm_num
  exact ⟨hne, face_new_reflect_involution _ _ _ _ hne⟩

/-- C7: two `Rng` instances constructed with the same 64-bit seed produce
identical `next()` sequences: for every seed and every n, the n-th output
of `Rng::new(seed)` is a function of the seed and n alone, so two runs
agree. -/
theorem rng_deterministic (seed n : ℕ) (r1 r2 : Rng)
    (h1 : r1 = Rng.new seed) (h2 : r2 = Rng.new seed) :
    r1.nthOutput n = r2.nthOutput n := by
  subst h1; subst h2; rfl

theorem rng_deterministic_witness :
    Rng.new 42 = Rng.new 42 ∧
      (Rng.new 42).nthOutput 3 = (Rng.new 42).nthOutput 3 :=
  ⟨rfl, rng_deterministic 42 3 _ _ rfl rfl⟩

/-- C4: `Scene::sample_at` returns the zero complex value whenever the
position fails `Face::is_facing` for at least one face, for every
frequency, every fuel bound and every state of the random stream; the
generator state is returned untouched, so the stream is not consulted
before returning. -/
theorem scene_sample_at_outside_zero (scene : Scene) (fuel : ℕ) (rng : Rng)
    (frequency : ℝ) (position : Vec3)
    (h : ∃ face ∈ scene.faces, ¬ face.is_facing position) :
    scene.sample_at fuel rng frequency position = some (Complex.zero, rng) := by
  unfold Scene.sample_at
  rw [if_neg]
  intro hall
  obtain ⟨f, hf, hnot⟩ := h
  exact hnot (hall f hf)

theorem scene_sample_at_outside_zero_witness :
    (∃ face ∈ (Scene.mk [] [Face.new ⟨0, 0, 0⟩ ⟨1, 0, 0⟩ ⟨0, 0, 1⟩]).faces,
        ¬ face.is_facing ⟨0, -5, 0⟩) ∧
      (Scene.mk [] [Face.new ⟨0, 0, 0⟩ ⟨1, 0, 0⟩ ⟨0, 0, 1⟩]).sample_at 3 (Rng.new 1)
          440 ⟨0, -5, 0⟩ =
        some (Complex.zero, Rng.new 1) := by
  have hnot : ¬ (Face.new ⟨0, 0, 0⟩ ⟨1, 0, 0⟩ ⟨0, 0, 1⟩).is_facing ⟨0, -5, 0⟩ := by
    unfold Face.is_facing Face.new Vec3.normalized Vec3.norm Vec3.norm_squared
    unfold Vec3.cross Vec3.dot
    simp only [Vec3.sub_x, Vec3.sub_y, Vec3.sub_z, Vec3.smul_x, Vec3.smul_y,
      Vec3.smul_z]
    norm_num [Real.sqrt_one]
  have hex : ∃ face ∈ (Scene.mk [] [Face.new ⟨0, 0, 0⟩ ⟨1, 0, 0⟩ ⟨0, 0, 1⟩]).faces,
      ¬ face.is_facing ⟨0, -5, 0⟩ :=
    ⟨_, List.mem_singleton.mpr rfl, hnot⟩
  exact ⟨hex, scene_sample_at_outside_zero _ 3 (Rng.new 1) 440 _ hex⟩

/-- C6: after `Renderer::set_frequency(f)` the stored frequency is `f`
and every element of the shared accumulation buffer is the zero complex
value (the buffer becomes a zero-filled list of its former length). -/
theorem set_frequency_clears (rs : RendererState) (f : ℝ) :
    (rs.set_frequency f).params.frequency_hz = f ∧
      (rs.set_frequency f).buffer = List.replicate rs.buffer.length Complex.zero := by
  refine ⟨rfl, ?_⟩
  show rs.buffer.map (fun _ => Complex.zero) = _
  rw [List.map_const']

/-- C2: when `Renderer::accumulate_move` is called with a `params` value
that differs from the shared `RenderParams` at the time of the check (and
the initial size assertion passes), the shared state is returned
unchanged and the caller's local buffer is returned unchanged — in
particular it is not zeroed. -/
theorem accumulate_move_stale_unchanged (rs : RendererState)
    (params : RenderParams) (buffer : List Complex)
    (hlen : buffer.length = rs.area) (hne : rs.params ≠ params) :
    rs.accumulate_move params buffer = some (rs, buffer) := by
  unfold RendererState.accumulate_move
  rw [if_neg (not_not_intro hlen), if_pos hne]

theorem accumulate_move_stale_unchanged_witness :
    ([Complex.new 3 4].length = (RendererState.mk 1 1 ⟨440⟩ [Complex.new 1 2]).area) ∧
      (RendererState.mk 1 1 ⟨440⟩ [Complex.new 1 2]).params ≠ RenderParams.mk 220 ∧
      (RendererState.mk 1 1 ⟨440⟩ [Complex.new 1 2]).accumulate_move ⟨220⟩
          [Complex.new 3 4] =
        some (RendererState.mk 1 1 ⟨440⟩ [Complex.new 1 2], [Complex.new 3 4]) := by
  have hne : (RendererState.mk 1 1 ⟨440⟩ [Complex.new 1 2]).params ≠ RenderParams.mk 220 := by
    intro hc
    have := congrArg RenderParams.frequency_hz hc
    norm_num at this
  exact ⟨rfl, hne, accumulate_move_stale_unchanged _ _ _ rfl hne⟩

/-- C3: when `Renderer::accumulate_move` is called with a `params` value
equal to the shared `RenderParams` and a local buffer of size
width·height, the new shared buffer is the elementwise sum of the old
shared buffer and the local buffer, and the caller's local buffer
becomes all zero complex values. -/
theorem accumulate_move_merges (rs : RendererState) (params : RenderParams)
    (buffer : List Complex) (hlen : buffer.length = rs.area)
    (heq : rs.params = params) (hshared : rs.buffer.length = buffer.length) :
    rs.accumulate_move params buffer =
        some ({ rs with buffer := List.zipWith (· + ·) rs.buffer buffer },
          List.replicate buffer.length Complex.zero) ∧
      ∀ i, i < buffer.length →
        (List.zipWith (· + ·) rs.buffer buffer).getD i Complex.zero =
          rs.buffer.getD i Complex.zero + buffer.getD i Complex.zero := by
  constructor
  · unfold RendererState.accumulate_move
    rw [if_neg (not_not_intro hlen), if_neg (not_not_intro heq),
      if_neg (not_not_intro hshared)]
    rw [List.map_const']
  · intro i hi
    have h1 : i < rs.buffer.length := by rw [hshared]; exact hi
    rw [List.getD_eq_getElem?_getD, List.getD_eq_getElem?_getD,
      List.getD_eq_getElem?_getD]
    rw [List.getElem?_zipWith']
    rw [List.getElem?_eq_getElem h1, List.getElem?_eq_getElem hi]
    simp

theorem accumulate_move_merges_witness :
    ([Complex.new 3 4].length = (RendererState.mk 1 1 ⟨440⟩ [Complex.new 1 2]).area) ∧
      ((RendererState.mk 1 1 ⟨440⟩ [Complex.new 1 2]).params = RenderParams.mk 440) ∧
      ((RendererState.mk 1 1 ⟨440⟩ [Complex.new 1 2]).buffer.length =
        [Complex.new 3 4].length) ∧
      (RendererState.mk 1 1 ⟨440⟩ [Complex.new 1 2]).accumulate_move ⟨440⟩
          [Complex.new 3 4] =
        some
          (RendererState.mk 1 1 ⟨440⟩
            (List.zipWith (· + ·) [Complex.new 1 2] [Complex.new 3 4]),
          List.replicate 1 Complex.zero) := by
  have h := accumulate_move_merges (RendererState.mk 1 1 ⟨440⟩ [Complex.new 1 2])
    ⟨440⟩ [Complex.new 3 4] rfl rfl rfl
  exact ⟨rfl, rfl, rfl, h.1⟩

/-- The rejection loop exits as soon as the draw stream yields an index
different from the previous one: some fuel bound suffices. -/
theorem pickDifferentFace_of_stream (F fi : ℕ) :
    ∀ t r, Rng.indexStream r F t ≠ fi →
      ∃ fuel fi2 r2, pickDifferentFace fuel r F fi = some (fi2, r2) := by
  intro t
  induction t with
  | zero =>
    intro r hne
    simp only [Rng.indexStream] at hne
    refine ⟨1, (r.index F).1, (r.index F).2, ?_⟩
    simp only [pickDifferentFace]
    rw [if_pos hne]
  | succ t ih =>
    intro r hne
    simp only [Rng.indexStream] at hne
    obtain ⟨fuel, fi2, r2, hp⟩ := ih (r.index F).2 hne
    by_cases hfirst : (r.index F).1 ≠ fi
    · refine ⟨1, (r.index F).1, (r.index F).2, ?_⟩
      simp only [pickDifferentFace]
      rw [if_pos hfirst]
    · refine ⟨fuel + 1, fi2, r2, ?_⟩
      simp only [pickDifferentFace]
      rw [if_neg hfirst]
      exact hp

/-- C9: the face-rejection loop of `Scene::sample_at`.  With at least two
faces an index differing from the previous pick always exists, and the
loop exits once the draw stream produces one: some fuel bound makes
`pickDifferentFace` succeed.  The two-face precondition is necessary:
with exactly one face the previous index is necessarily `0`, every draw
is `0` (`next() % 1`), and `pickDifferentFace` returns `none` for every
fuel and every generator state, so the loop can never exit. -/
theorem pick_face_termination :
    (∀ F fi : ℕ, 2 ≤ F → fi < F → ∃ v, v < F ∧ v ≠ fi) ∧
      (∀ (F fi : ℕ) (r : Rng), (∃ t, Rng.indexStream r F t ≠ fi) →
        ∃ fuel fi2 r2, pickDifferentFace fuel r F fi = some (fi2, r2)) ∧
      ∀ (fuel : ℕ) (r : Rng), pickDifferentFace fuel r 1 0 = none := by
  refine ⟨?_, ?_, ?_⟩
  · intro F fi h2 hfi
    by_cases h : fi = 0
    · exact ⟨1, by omega, by omega⟩
    · exact ⟨0, by omega, by omega⟩
  · intro F fi r ht
    obtain ⟨t, ht⟩ := ht
    exact pickDifferentFace_of_stream F fi t r ht
  · intro fuel
    induction fuel with
    | zero => intro r; rfl
    | succ n ih =>
      intro r
      simp only [pickDifferentFace]
      rw [if_neg (by simp [Rng.index, Nat.mod_one])]
      exact ih (r.index 1).2

theorem pick_face_termination_witness :
    ((2:ℕ) ≤ 2 ∧ (0:ℕ) < 2 ∧ ∃ v, v < 2 ∧ v ≠ 0) ∧
      ((∃ t, Rng.indexStream (Rng.new 1) 2 t ≠ 0) ∧
        ∃ fuel fi2 r2, pickDifferentFace fuel (Rng.new 1) 2 0 = some (fi2, r2)) ∧
      pickDifferentFace 5 (Rng.new 1) 1 0 = none := by
  have hstream : ∃ t, Rng.indexStream (Rng.new 1) 2 t ≠ 0 := ⟨0, by decide⟩
  exact ⟨⟨le_refl 2, by norm_num, pick_face_termination.1 2 0 (le_refl 2) (by norm_num)⟩,
    ⟨hstream, pick_face_termination.2.1 2 0 (Rng.new 1) hstream⟩,
    pick_face_termination.2.2 5 (Rng.new 1)⟩

/-- Bounds on the truncating `f32`-to-`i32` cast, for nonnegative values
comfortably below the saturation bound. -/
theorem asI32_bounds (v : ℝ) (lo hi : ℤ) (h0 : 0 ≤ v) (hlo : (lo:ℝ) ≤ v)
    (hhi : v < (hi:ℝ)) (hhi31 : hi ≤ 2 ^ 31 - 1) :
    lo ≤ asI32 v ∧ asI32 v < hi := by
  unfold asI32
  rw [if_pos h0]
  have h1 : lo ≤ ⌊v⌋ := Int.le_floor.mpr hlo
  have h2 : ⌊v⌋ < hi := Int.floor_lt.mpr hhi
  rw [show ((2:ℤ) ^ 31 - 1) = 2147483647 by norm_num] at hhi31 ⊢
  omega

/-- C10: for the hard-coded example scene and the fixed 1280×720 buffer,
every index `Renderer::get_exposure` computes from a source's
1-meter-in-front reference point, for all nine `(dx, dy)` offsets, lies
within the buffer bounds `[0, 1280·720)`; hence the unguarded indexing in
`get_exposure` — and in `Renderer::paint`, which calls it on the shared
buffer of exactly that size — cannot fail. -/
theorem get_exposure_indices_in_bounds (s : Source) (dx dy : ℤ)
    (hs : s ∈ Scene.new_example.sources)
    (hdx : dx = -1 ∨ dx = 0 ∨ dx = 1) (hdy : dy = -1 ∨ dy = 0 ∨ dy = 1) :
    0 ≤ exposureIndex s 1280 dx dy ∧ exposureIndex s 1280 dx dy < 1280 * 720 := by
  have hdx1 : -1 ≤ dx := by rcases hdx with h | h | h <;> simp [h]
  have hdx2 : dx ≤ 1 := by rcases hdx with h | h | h <;> simp [h]
  have hdy1 : -1 ≤ dy := by rcases hdy with h | h | h <;> simp [h]
  have hdy2 : dy ≤ 1 := by rcases hdy with h | h | h <;> simp [h]
  have h100 : Real.sqrt 100 = 10 := by
    rw [show (100:ℝ) = 10 ^ 2 by norm_num, Real.sqrt_sq (by norm_num)]
  have hq1 : (28.1:ℝ) < Real.sqrt 793 := by
    rw [Real.lt_sqrt (by norm_num)]; norm_num
  have hq2 : Real.sqrt 793 < 28.2 := by
    rw [Real.sqrt_lt' (by norm_num)]; norm_num
  have hq0 : (0:ℝ) < Real.sqrt 793 := by linarith
  have hd1 : Real.sqrt 100 / Real.sqrt 793 < 0.356 := by
    rw [h100, div_lt_iff₀ hq0]; nlinarith
  have hd2 : (0.354:ℝ) < Real.sqrt 100 / Real.sqrt 793 := by
    rw [h100, lt_div_iff₀ hq0]; nlinarith
  have h125 : (0:ℝ) < 1 / 125 := by norm_num
  simp only [Scene.new_example, List.mem_cons, List.not_mem_nil, or_false] at hs
  rcases hs with h | h
  · subst h
    unfold exposureIndex
    simp only [Source.new, Vec3.normalized, Vec3.norm, Vec3.norm_squared, Vec3.dot,
      Vec3.add_x, Vec3.add_y, Vec3.sub_x, Vec3.sub_y, Vec3.sub_z, Vec3.smul_x,
      Vec3.smul_y]
    norm_num
    obtain ⟨hx1, hx2⟩ := asI32_bounds
      ((3 / 5 + 4 / 5 * (Real.sqrt 100 / Real.sqrt 793) + 1 / 2) / (1 / 125)) 172 174
      (by positivity)
      (by push_cast
          rw [le_div_iff₀ h125]
          linarith)
      (by push_cast
          rw [div_lt_iff₀ h125]
          linarith)
      (by norm_num)
    obtain ⟨hy1, hy2⟩ := asI32_bounds
      ((3 / 10 + 27 / 10 * (Real.sqrt 100 / Real.sqrt 793) + 1 / 2) / (1 / 125)) 219 221
      (by positivity)
      (by push_cast
          rw [le_div_iff₀ h125]
          linarith)
      (by push_cast
          rw [div_lt_iff₀ h125]
          linarith)
      (by norm_num)
    exact ⟨by omega, by omega⟩
  · subst h
    unfold exposureIndex
    simp only [Source.new, Vec3.normalized, Vec3.norm, Vec3.norm_squared, Vec3.dot,
      Vec3.add_x, Vec3.add_y, Vec3.sub_x, Vec3.sub_y, Vec3.sub_z, Vec3.smul_x,
      Vec3.smul_y]
    norm_num
    obtain ⟨hx1, hx2⟩ := asI32_bounds
      ((11 / 5 + -(4 / 5 * (Real.sqrt 100 / Real.sqrt 793)) + 1 / 2) / (1 / 125)) 301 303
      (by rw [le_div_iff₀ h125]; linarith)
      (by push_cast
          rw [le_div_iff₀ h125]
          linarith)
      (by push_cast
          rw [div_lt_iff₀ h125]
          linarith)
      (by norm_num)
    obtain ⟨hy1, hy2⟩ := asI32_bounds
      ((3 / 10 + 27 / 10 * (Real.sqrt 100 / Real.sqrt 793) + 1 / 2) / (1 / 125)) 219 221
      (by positivity)
      (by push_cast
          rw [le_div_iff₀ h125]
          linarith)
      (by push_cast
          rw [div_lt_iff₀ h125]
          linarith)
      (by norm_num)
    exact ⟨by omega, by omega⟩

theorem get_exposure_indices_in_bounds_witness :
    (Source.new ⟨0.60, 0.30, 1⟩ ⟨1.40, 3, 1⟩ ∈ Scene.new_example.sources) ∧
      ((0:ℤ) = -1 ∨ (0:ℤ) = 0 ∨ (0:ℤ) = 1) ∧
      0 ≤ exposureIndex (Source.new ⟨0.60, 0.30, 1⟩ ⟨1.40, 3, 1⟩) 1280 0 0 ∧
      exposureIndex (Source.new ⟨0.60, 0.30, 1⟩ ⟨1.40, 3, 1⟩) 1280 0 0 < 1280 * 720 := by
  have hs : Source.new ⟨0.60, 0.30, 1⟩ ⟨1.40, 3, 1⟩ ∈ Scene.new_example.sources := by
    simp [Scene.new_example]
  have hz : (0:ℤ) = -1 ∨ (0:ℤ) = 0 ∨ (0:ℤ) = 1 := Or.inr (Or.inl rfl)
  exact ⟨hs, hz, get_exposure_indices_in_bounds _ 0 0 hs hz hz⟩

/-- The rejection loop, when it exits, yields a face index different
from the previous one. -/
theorem pickDifferentFace_ne (fuel : ℕ) :
    ∀ (r : Rng) (F fi fi2 : ℕ) (r2 : Rng),
      pickDifferentFace fuel r F fi = some (fi2, r2) → fi2 ≠ fi := by
  induction fuel with
  | zero => intro r F fi fi2 r2 h; exact absurd h (by simp [pickDifferentFace])
  | succ n ih =>
    intro r F fi fi2 r2 h
    simp only [pickDifferentFace] at h
    by_cases hc : (r.index F).1 ≠ fi
    · rw [if_pos hc] at h
      simp only [Option.some.injEq, Prod.mk.injEq] at h
      obtain ⟨h1, h2⟩ := h
      subst h1
      exact hc
    · rw [if_neg hc] at h
      exact ih _ _ _ _ _ h

theorem specBounceSeq_succ (scene : Scene) (fuel : ℕ) (n : ℕ) (s : Vec3 × ℕ × Rng) :
    specBounceSeq scene fuel (n + 1) s =
      (specStep scene fuel s).bind (specBounceSeq scene fuel n) := rfl

/-- Unrolling the bounce loop: its value is the sum of the per-bounce
samples with closed-form amplitudes `amplitude · factor^k`, and the
final position, face index and generator state follow the spec-side
sequence. -/
theorem runBounces_eq_spec (scene : Scene) (source : Source) (factor frequency : ℝ)
    (fuel : ℕ) :
    ∀ (n : ℕ) (st : BounceState),
      runBounces scene source factor frequency fuel n st =
        (specBounceSeq scene fuel n (st.p, st.fi, st.rng)).map fun s =>
          ⟨st.z + ∑ k ∈ Finset.range n,
              specTerm scene source factor frequency fuel (st.p, st.fi, st.rng)
                st.amplitude k,
            s.1, st.amplitude * factor ^ n, s.2.1, s.2.2⟩ := by
  intro n
  induction n with
  | zero =>
    intro st
    simp [runBounces, specBounceSeq]
  | succ n ih =>
    intro st
    show (bounceStep scene source factor frequency fuel st).bind _ = _
    rcases hpick : pickDifferentFace fuel st.rng scene.faces.length st.fi with _ | ⟨fi, r⟩
    · simp [bounceStep, specBounceSeq, specStep, hpick]
    · rcases hget : scene.faces[fi]? with _ | face
      · simp [bounceStep, specBounceSeq, specStep, hpick, hget]
      · have hstep : bounceStep scene source factor frequency fuel st =
            some ⟨st.z + source.sample_at frequency st.p * st.amplitude,
              face.reflect st.p, st.amplitude * factor, fi, r⟩ := by
          simp [bounceStep, hpick, hget]
        have hspecstep : specStep scene fuel (st.p, st.fi, st.rng) =
            some (face.reflect st.p, fi, r) := by
          simp [specStep, hpick, hget]
        have hterm : ∀ (k : ℕ),
            specTerm scene source factor frequency fuel (st.p, st.fi, st.rng)
              st.amplitude (k + 1) =
            specTerm scene source factor frequency fuel (face.reflect st.p, fi, r)
              (st.amplitude * factor) k := by
          intro k
          unfold specTerm
          rw [specBounceSeq_succ, hspecstep, Option.some_bind]
          rcases specBounceSeq scene fuel k (face.reflect st.p, fi, r) with _ | s2
          · rfl
          · show _ * _ = _ * _
            congr 1
            ring
        have ht0 : specTerm scene source factor frequency fuel (st.p, st.fi, st.rng)
            st.amplitude 0 = source.sample_at frequency st.p * st.amplitude := by
          simp [specTerm, specBounceSeq]
        rw [hstep, Option.some_bind, ih]
        rw [specBounceSeq_succ, hspecstep, Option.some_bind]
        rcases hS : specBounceSeq scene fuel n (face.reflect st.p, fi, r) with _ | s
        · rfl
        · simp only [Option.map_some']
          congr 1
          congr 1
          · show st.z + source.sample_at frequency st.p * st.amplitude +
                ∑ k ∈ Finset.range n, specTerm scene source factor frequency fuel
                  (face.reflect st.p, fi, r) (st.amplitude * factor) k =
              st.z + ∑ k ∈ Finset.range (n + 1), specTerm scene source factor frequency
                  fuel (st.p, st.fi, st.rng) st.amplitude k
            rw [Finset.sum_range_succ']
            rw [Finset.sum_congr rfl fun k _ => hterm k]
            rw [ht0]
            rw [add_assoc, add_comm (source.sample_at frequency st.p * st.amplitude)]
          · show st.amplitude * factor * factor ^ n = st.amplitude * factor ^ (n + 1)
            ring

/-- C1: when the position faces every face, `Scene::sample_at` draws a
source index and an initial face index, runs exactly 30 bounce
iterations, and returns the sum over k = 0..29 of
`source.sample_at(frequency, p_k)` scaled by `(1/4096) · (reflectivity ·
(F − 1))^k` with `reflectivity = −0.95` and `F` the number of faces,
where `p_0` is the queried position and `p_{k+1}` is `p_k` reflected
across the face drawn at step k+1 (`specBounceSeq`); moreover every face
index the rejection loop yields differs from the previous one. -/
theorem scene_sample_at_estimator (scene : Scene) (fuel : ℕ) (rng : Rng)
    (frequency : ℝ) (position : Vec3) (si : ℕ) (r1 : Rng) (source : Source)
    (fi0 : ℕ) (r2 : Rng)
    (hface : ∀ face ∈ scene.faces, face.is_facing position)
    (hsi : rng.index scene.sources.length = (si, r1))
    (hsource : scene.sources[si]? = some source)
    (hfi : r1.index scene.faces.length = (fi0, r2)) :
    (scene.sample_at fuel rng frequency position =
        (specBounceSeq scene fuel 30 (position, fi0, r2)).map fun s =>
          (specTotal scene source (-0.95 * ((scene.faces.length - 1 : ℕ) : ℝ))
              frequency fuel (position, fi0, r2),
            s.2.2)) ∧
      ∀ (fl : ℕ) (r' : Rng) (F fi fi2 : ℕ) (r2' : Rng),
        pickDifferentFace fl r' F fi = some (fi2, r2') → fi2 ≠ fi := by
  constructor
  · unfold Scene.sample_at
    rw [if_pos hface]
    dsimp only
    rw [hsi]
    dsimp only
    rw [hsource]
    dsimp only
    rw [hfi]
    dsimp only
    rw [runBounces_eq_spec]
    rw [Option.map_map]
    congr 1
    funext s
    simp [Function.comp, specTotal]
    exact zero_add _
  · exact fun fl => pickDifferentFace_ne fl

theorem scene_sample_at_estimator_witness :
    (∀ face ∈ demoScene.faces, face.is_facing ⟨0.5, 1, 0⟩) ∧
      ((Rng.new 1).index demoScene.sources.length = (0, (Rng.new 1).next.2)) ∧
      (demoScene.sources[0]? = some (Source.new ⟨0.5, 0.5, 5⟩ ⟨0.5, 1, 0⟩)) ∧
      ((Rng.new 1).next.2.index demoScene.faces.length =
        ((Rng.new 1).next.2.next.1 % 2, (Rng.new 1).next.2.next.2)) ∧
      (demoScene.sample_at 5 (Rng.new 1) 440 ⟨0.5, 1, 0⟩ =
        (specBounceSeq demoScene 5 30
            (⟨0.5, 1, 0⟩, (Rng.new 1).next.2.next.1 % 2,
              (Rng.new 1).next.2.next.2)).map
          fun s =>
            (specTotal demoScene (Source.new ⟨0.5, 0.5, 5⟩ ⟨0.5, 1, 0⟩)
                (-0.95 * ((demoScene.faces.length - 1 : ℕ) : ℝ)) 440 5
                (⟨0.5, 1, 0⟩, (Rng.new 1).next.2.next.1 % 2,
                  (Rng.new 1).next.2.next.2),
              s.2.2)) := by
  have hface : ∀ face ∈ demoScene.faces, face.is_facing ⟨0.5, 1, 0⟩ := by
    intro f hf
    simp only [demoScene, List.mem_cons, List.not_mem_nil, or_false] at hf
    rcases hf with rfl | rfl
    · unfold Face.is_facing Face.new Vec3.normalized Vec3.norm Vec3.norm_squared
      unfold Vec3.cross Vec3.dot
      simp only [Vec3.sub_x, Vec3.sub_y, Vec3.sub_z, Vec3.smul_x, Vec3.smul_y,
        Vec3.smul_z]
      norm_num [Real.sqrt_one]
    · unfold Face.is_facing Face.new Vec3.normalized Vec3.norm Vec3.norm_squared
      unfold Vec3.cross Vec3.dot
      simp only [Vec3.sub_x, Vec3.sub_y, Vec3.sub_z, Vec3.smul_x, Vec3.smul_y,
        Vec3.smul_z]
      norm_num [Real.sqrt_one]
  have hsi : (Rng.new 1).index demoScene.sources.length = (0, (Rng.new 1).next.2) := by
    decide
  have hsource : demoScene.sources[0]? = some (Source.new ⟨0.5, 0.5, 5⟩ ⟨0.5, 1, 0⟩) :=
    rfl
  have hfi : (Rng.new 1).next.2.index demoScene.faces.length =
      ((Rng.new 1).next.2.next.1 % 2, (Rng.new 1).next.2.next.2) := by
    decide
  exact ⟨hface, hsi, hsource, hfi,
    (scene_sample_at_estimator demoScene 5 (Rng.new 1) 440 ⟨0.5, 1, 0⟩ 0
      ((Rng.new 1).next.2) (Source.new ⟨0.5, 0.5, 5⟩ ⟨0.5, 1, 0⟩)
      ((Rng.new 1).next.2.next.1 % 2) ((Rng.new 1).next.2.next.2)
      hface hsi hsource hfi).1⟩

end Basstrace
